import Mathlib

/-!
Verification of the deployqb CLI (Safe-Right-Fast/SRF_QB_DEPLOY) against its
natural-language specification.

The development shallowly embeds the deploy pipeline of `src/index.js`, the
request builder of `src/lib/qb.js`, the manifest template of
`src/lib/qbcliTemplate.js`, and the variant driver found in
`src/unnamed/part_000`.  Side effects are made explicit: the filesystem is a
partial map from filename to content, the transport is a function from a
request to an `Except` result, and the alert stream is collected as a list.
-/

namespace DeployQB

/-- A JavaScript-ish value for the `isIndexFile` field of a manifest entry:
the persisted file may hold the string `'yes'`, a boolean, or omit the field
entirely (`undefined`).  The deploy code tests `fileConf.isIndexFile === 'yes'`. -/
inductive JSVal
  | undef
  | bool (b : Bool)
  | str (s : String)
deriving DecidableEq

/-- The strict-equality test `v === 'yes'` of JavaScript. -/
def JSVal.isYes : JSVal → Bool
  | JSVal.str s => s == "yes"
  | _ => false

/-- One entry of `filesConf` in `qbcli.json` (see the template in
`src/lib/qbcliTemplate.js` and the loop in `getAllFileContents`). -/
structure FileConfEntry where
  filename : String
  path : Option String
  dependencies : Option (List Nat)
  isIndexFile : JSVal
deriving DecidableEq

/-- The fields of the persisted `qbcli.json` manifest that the CLI reads
(`existingQbCliConfigs` in `src/index.js`). -/
structure QbCliConfigs where
  urlQueryString : String
  repositoryId : String
  prodPrefix : String
  devPrefix : String
  dbid : String
  devDbid : String
  devAndProdQuickBaseApplications : String
  realm : String
  filesConf : List FileConfEntry
deriving DecidableEq

/-- The per-developer record stored in the Configstore under `repositoryId`
(`saveFeaturePrefix` / `getConfiguration` in `src/index.js`). -/
structure PerDevConfig where
  customPrefixFeature : String
deriving DecidableEq

/-- The environment variables read by `src/lib/qbcliTemplate.js`. -/
structure TemplateEnv where
  repositoryId : String
  customPrefixProduction : String
  customPrefix : String
  dbid : String
  devAndProdQuickBaseApplications : String
  devDbid : String
  realm : String

/-- Embedding of `src/lib/qbcliTemplate.js`: the freshly generated manifest
template, including its example `filesConf` entries. -/
def qbcliTemplate (env : TemplateEnv) : QbCliConfigs :=
  { urlQueryString := ""
    repositoryId := env.repositoryId
    prodPrefix := env.customPrefixProduction
    devPrefix := env.customPrefix
    dbid := env.dbid
    devDbid := if env.devAndProdQuickBaseApplications = "yes" then env.devDbid else ""
    devAndProdQuickBaseApplications := env.devAndProdQuickBaseApplications
    realm := env.realm
    filesConf :=
      [ { filename := "exampleFileName.js"
          path := some "./example/"
          dependencies := none
          isIndexFile := JSVal.undef },
        { filename := "example.html"
          path := some "./examplefolder/subfolder/"
          dependencies := some [1, 3]
          isIndexFile := JSVal.bool false } ] }

/-- Embedding of the `init` branch of `run` (`src/index.js`, lines 69-88):
the template is generated, and when a prior `qbcli.json` exists its
`urlQueryString` and `filesConf` are copied into the fresh template before it
is persisted. -/
def initData (env : TemplateEnv) (existingQbCliConfigs : Option QbCliConfigs) : QbCliConfigs :=
  let data := qbcliTemplate env
  match existingQbCliConfigs with
  | some cfgs => { data with urlQueryString := cfgs.urlQueryString, filesConf := cfgs.filesConf }
  | none => data

/-- The object handed to axios by `addUpdateDbPage` in `src/lib/qb.js`. -/
structure QBRequest where
  method : String
  url : String
  headers : List (String × String)
  data : String
deriving DecidableEq

/-- Embedding of `addUpdateDbPage` (`src/lib/qb.js`).  The source destructures
`formattedFiles[0]` / `formattedFiles[1]` into `pagename` / `pagebody`; those
two strings are taken here as arguments, and each call site below applies the
JavaScript indexing semantics of its actual argument.  An absent or empty
`apptoken` is falsy in JavaScript, so no `<apptoken>` element is emitted. -/
def addUpdateDbPage (dbid realm usertoken apptoken pagename pagebody : String) : QBRequest :=
  let url := realm ++ "/db/" ++ dbid
  let apptokenString := if apptoken = "" then "" else "<apptoken>" ++ apptoken ++ "</apptoken>"
  let data :=
    "\n            <qdbapi>\n                <pagename>" ++ pagename ++
    "</pagename>\n                <pagetype>1</pagetype>\n                <pagebody><![CDATA[" ++
    pagebody ++
    "]]></pagebody>\n                <usertoken>" ++ usertoken ++
    "</usertoken>\n                " ++ apptokenString ++ "\n            </qdbapi>\n        "
  { method := "post"
    url := url
    headers :=
      [ ("X_QUICKBASE_RETURN_HTTP_ERROR", "true"),
        ("QUICKBASE-ACTION", "API_AddReplaceDBPage"),
        ("Content-Type", "application/xml") ]
    data := data }

/-- The deployment type selected by the CLI command
(`getDeploymentType` in `src/index.js` returns the strings
`'dev'` / `'prod'` / `'feat'`). -/
inductive DeploymentType
  | dev
  | prod
  | feat
deriving DecidableEq

/-- The string `getDeploymentType` returns for each command. -/
def deploymentTypeName : DeploymentType → String
  | DeploymentType.dev => "dev"
  | DeploymentType.prod => "prod"
  | DeploymentType.feat => "feat"

/-- One message printed through `lib/alerts`: either `alert.success` or
`alert.error`. -/
inductive Alert
  | success (msg : String)
  | error (msg : String)
deriving DecidableEq

/-- Embedding of `getAllFileContents` (`src/index.js`, lines 421-444).  The
filesystem is a partial map from filename to content
(`files.fileFolderExists` / `files.getFileContents`).  An existing file of
any content — including the empty string — is pushed as
`[fileName, fileContents, isIndexFile]`; a missing file is skipped with no
output of any kind.  The `prefix` parameter of the source function is unused
by its body and omitted here. -/
def loadStep (fs : String → Option String) (arrayOfFileContents : List (String × String × Bool))
    (fileConf : FileConfEntry) : List (String × String × Bool) :=
  match fs fileConf.filename with
  | some fileContents =>
      arrayOfFileContents ++ [(fileConf.filename, fileContents, fileConf.isIndexFile.isYes)]
  | none => arrayOfFileContents

/-- The loop of `getAllFileContents`, folding `loadStep` over the manifest's
file list in order, starting from the empty accumulator. -/
def getAllFileContents (fs : String → Option String) (filesConf : List FileConfEntry) :
    List (String × String × Bool) :=
  filesConf.foldl (loadStep fs) []

/-- One step of the `arrayOfFileContents.map` at `src/index.js` lines 152-159:
the accumulator carries the formatted `[prefixedName, contents]` list built so
far together with the mutable `indexFileName` variable (initially `null`,
overwritten by every entry whose `isIndexFile` flag is set). -/
def formatStep (pfx : String) (acc : List (String × String) × Option String)
    (t : String × String × Bool) : List (String × String) × Option String :=
  (acc.1 ++ [(pfx ++ t.1, t.2.1)], if t.2.2 then some t.1 else acc.2)

/-- Embedding of the formatting pass of `run` (`src/index.js`, lines 152-159):
returns the formatted `[prefixedName, contents]` pairs in order, together with
the final value of `indexFileName`. -/
def formatFiles (pfx : String) (arrayOfFileContents : List (String × String × Bool)) :
    List (String × String) × Option String :=
  arrayOfFileContents.foldl (formatStep pfx) ([], none)

/-- Embedding of `handleAPICalls` (`src/index.js`, lines 453-485) for a single
formatted `[pagename, pagebody]` pair: it builds the upsert request, awaits
the transport, and turns the result into one alert — `alert.success(...)` on
success, `alert.error(error.message)` on failure.  The error is caught inside
the function and not rethrown. -/
def handleAPICalls (tr : QBRequest → Except String Unit) (deploymentTypeStr : String)
    (cfgs : QbCliConfigs) (usertoken apptoken pagename pagebody : String) :
    QBRequest × Alert :=
  let req := addUpdateDbPage cfgs.dbid cfgs.realm usertoken apptoken pagename pagebody
  (req,
    match tr req with
    | Except.ok _ =>
        Alert.success ("Files have been successfully deployed to the " ++ deploymentTypeStr ++
          " environment.")
    | Except.error m => Alert.error m)

/-- One iteration of the deploy `for` loop (`src/index.js`, lines 161-163),
accumulating the issued requests and the emitted alerts. -/
def deployStep (tr : QBRequest → Except String Unit) (deploymentTypeStr : String)
    (cfgs : QbCliConfigs) (usertoken apptoken : String)
    (acc : List QBRequest × List Alert) (p : String × String) :
    List QBRequest × List Alert :=
  let h := handleAPICalls tr deploymentTypeStr cfgs usertoken apptoken p.1 p.2
  (acc.1 ++ [h.1], acc.2 ++ [h.2])

/-- Embedding of the deploy `for` loop of `run` (`src/index.js`, lines
161-163): `handleAPICalls` is awaited once per formatted pair, in order. -/
def deployLoop (tr : QBRequest → Except String Unit) (deploymentTypeStr : String)
    (cfgs : QbCliConfigs) (usertoken apptoken : String)
    (formattedFiles : List (String × String)) : List QBRequest × List Alert :=
  formattedFiles.foldl (deployStep tr deploymentTypeStr cfgs usertoken apptoken) ([], [])

/-- Embedding of the deploy branch of `run` in `src/unnamed/part_000` (lines
173-174): `handleAPICalls` is called exactly once, with the whole
`formattedFiles` array.  Inside `addUpdateDbPage`, JavaScript evaluates
`formattedFiles[0]` and `formattedFiles[1]` to the first and second element
pairs, and the template literal coerces each pair to a string by joining its
components with a comma (an out-of-range index yields `undefined`, which the
template literal renders as the string `"undefined"`). -/
def jsIndexToString (l : List (String × String)) (i : Nat) : String :=
  match l.get? i with
  | some p => p.1 ++ "," ++ p.2
  | none => "undefined"

/-- The single `handleAPICalls` invocation of `src/unnamed/part_000`,
returning the one request issued and the one alert emitted. -/
def part000DeployCall (tr : QBRequest → Except String Unit) (deploymentTypeStr : String)
    (cfgs : QbCliConfigs) (usertoken apptoken : String)
    (formattedFiles : List (String × String)) : List QBRequest × List Alert :=
  let h := handleAPICalls tr deploymentTypeStr cfgs usertoken apptoken
    (jsIndexToString formattedFiles 0) (jsIndexToString formattedFiles 1)
  ([h.1], [h.2])

/-- Modelled from the spec: `helpers.prefixGenerator` lives in
`src/lib/helpers.js`, which is not part of the provided sources; only its
call site (`src/index.js`, lines 132-140) is.  Spec section 4.2: production
resolves to the manifest's production custom prefix, development to the
development custom prefix, feature to the per-developer feature prefix, and
an empty resolved prefix fails with `MissingPrefix` rather than deploying
unprefixed files.  The `repositoryId` argument is passed at the call site and
unused by the resolution rule. -/
def generatePrefix (customPrefix customPrefixProduction customPrefixFeature : String)
    (deploymentType : DeploymentType) (repositoryId : String) : Except Unit String :=
  let _ := repositoryId
  let resolved :=
    match deploymentType with
    | DeploymentType.dev => customPrefix
    | DeploymentType.prod => customPrefixProduction
    | DeploymentType.feat => customPrefixFeature
  if resolved = "" then Except.error () else Except.ok resolved

/-- The prefix the deploy branch resolves for a deployment type, following
the argument mapping of the `prefixGenerator` call site (`src/index.js`,
lines 132-140): `customPrefix` is the manifest's `devPrefix`,
`customPrefixProduction` its `prodPrefix`, and `customPrefixFeature` the
per-developer one. -/
def resolvedPrefix (cfgs : QbCliConfigs) (devConfigs : PerDevConfig)
    (deploymentType : DeploymentType) : String :=
  match deploymentType with
  | DeploymentType.dev => cfgs.devPrefix
  | DeploymentType.prod => cfgs.prodPrefix
  | DeploymentType.feat => devConfigs.customPrefixFeature

/-- How the deploy branch of `run` terminates. -/
inductive DeployOutcome
  | errEmptyFilesList
  | errNotInitialized
  | notConfirmed
  | errMissingPrefix
  | errEmptyBatch
  | deployed
deriving DecidableEq

/-- The spec's `EmptyDeployment` taxonomy entry covers both empty-batch
rejections of the deploy branch: the empty `filesConf` check
(`src/index.js`, lines 111-114) and the empty-survivors check (lines
144-149). -/
def DeployOutcome.isEmptyDeployment (o : DeployOutcome) : Prop :=
  o = DeployOutcome.errEmptyFilesList ∨ o = DeployOutcome.errEmptyBatch

/-- The observable result of one run of the deploy branch: the POST requests
issued through axios, the alerts printed, and how the branch terminated. -/
structure DeployResult where
  posts : List QBRequest
  alerts : List Alert
  outcome : DeployOutcome
deriving DecidableEq

/-- The long qbcli.json diagnostic printed when zero loaded entries survive
(`src/index.js`, lines 145-147). -/
def checkQbcliMessage : String :=
  "Please check your qbcli.json in the root of your project. Make sure you have mapped the correct path to all of the files you are trying to deploy. Also, check all filenames match what is in those directories, and that all files have content (this tool will not deploy blank files - add a comment in the file if you would like to deploy without code)."

/-- Embedding of the deploy branch of `run` (`src/index.js`, lines 94-171),
with the manifest, the per-developer Configstore record, the confirmation
answer, the filesystem and the transport passed explicitly.  The
prefix-resolution step uses the spec-modelled `generatePrefix` (see its doc
comment); a `MissingPrefix` failure there aborts the branch before any file
is read or transmitted. -/
def deployRun (cfgs : QbCliConfigs) (configs : Option PerDevConfig) (confirmAnswer : String)
    (fs : String → Option String) (tr : QBRequest → Except String Unit)
    (deploymentType : DeploymentType) (usertoken apptoken : String) : DeployResult :=
  if cfgs.filesConf.length < 1 then
    { posts := []
      alerts := [Alert.error "You must list files to deploy in your qbcli.json."]
      outcome := DeployOutcome.errEmptyFilesList }
  else
    match configs with
    | none =>
        { posts := []
          alerts := [Alert.error "Project may never have been initialized - please run deployqb init."]
          outcome := DeployOutcome.errNotInitialized }
    | some devConfigs =>
        if (deploymentType = DeploymentType.prod ∨ deploymentType = DeploymentType.dev) ∧
            confirmAnswer ≠ "yes" then
          { posts := [], alerts := [], outcome := DeployOutcome.notConfirmed }
        else
          match generatePrefix cfgs.devPrefix cfgs.prodPrefix devConfigs.customPrefixFeature
              deploymentType cfgs.repositoryId with
          | Except.error _ =>
              { posts := [], alerts := [], outcome := DeployOutcome.errMissingPrefix }
          | Except.ok pfx =>
              let arrayOfFileContents := getAllFileContents fs cfgs.filesConf
              if arrayOfFileContents.length < 1 then
                { posts := []
                  alerts := [Alert.error checkQbcliMessage]
                  outcome := DeployOutcome.errEmptyBatch }
              else
                let fmt := formatFiles pfx arrayOfFileContents
                let lp := deployLoop tr (deploymentTypeName deploymentType) cfgs usertoken
                  apptoken fmt.1
                { posts := lp.1, alerts := lp.2, outcome := DeployOutcome.deployed }

end DeployQB

namespace DeployQB

/-- The successful-deploy message `handleAPICalls` prints for a deployment
type string. -/
def deployedMessage (deploymentTypeStr : String) : String :=
  "Files have been successfully deployed to the " ++ deploymentTypeStr ++ " environment."

/-- The last entry of the batch whose `isIndexFile` flag is set, if any:
what the repeatedly overwritten `indexFileName` variable ends up holding. -/
def lastClaim : List (String × String × Bool) → Option String
  | [] => none
  | t :: rest =>
    match lastClaim rest with
    | some x => some x
    | none => if t.2.2 then some t.1 else none

lemma foldl_loadStep (fs : String → Option String) (conf : List FileConfEntry) :
    ∀ acc : List (String × String × Bool),
      conf.foldl (loadStep fs) acc =
        acc ++ conf.filterMap
          (fun e => (fs e.filename).map (fun c => (e.filename, c, e.isIndexFile.isYes))) := by
  induction conf with
  | nil => intro acc; simp
  | cons e conf ih =>
    intro acc
    cases h : fs e.filename with
    | none => simp [loadStep, h, ih]
    | some c => simp [loadStep, h, ih]

lemma getAllFileContents_eq (fs : String → Option String) (conf : List FileConfEntry) :
    getAllFileContents fs conf =
      conf.filterMap
        (fun e => (fs e.filename).map (fun c => (e.filename, c, e.isIndexFile.isYes))) := by
  simpa using foldl_loadStep fs conf []

lemma getAllFileContents_of_all_missing (fs : String → Option String)
    (conf : List FileConfEntry) (h : ∀ e ∈ conf, fs e.filename = none) :
    getAllFileContents fs conf = [] := by
  rw [getAllFileContents_eq]
  refine List.filterMap_eq_nil_iff.mpr (fun e he => ?_)
  rw [h e he]
  rfl

lemma foldl_deployStep (tr : QBRequest → Except String Unit) (dts : String)
    (cfgs : QbCliConfigs) (ut atk : String) (files : List (String × String)) :
    ∀ acc : List QBRequest × List Alert,
      files.foldl (deployStep tr dts cfgs ut atk) acc =
        (acc.1 ++ files.map (fun p => addUpdateDbPage cfgs.dbid cfgs.realm ut atk p.1 p.2),
         acc.2 ++ files.map (fun p =>
           match tr (addUpdateDbPage cfgs.dbid cfgs.realm ut atk p.1 p.2) with
           | Except.ok _ => Alert.success (deployedMessage dts)
           | Except.error m => Alert.error m)) := by
  induction files with
  | nil => intro acc; simp
  | cons p files ih =>
    intro acc
    simp [deployStep, handleAPICalls, deployedMessage, ih]

lemma deployLoop_eq (tr : QBRequest → Except String Unit) (dts : String)
    (cfgs : QbCliConfigs) (ut atk : String) (files : List (String × String)) :
    deployLoop tr dts cfgs ut atk files =
      (files.map (fun p => addUpdateDbPage cfgs.dbid cfgs.realm ut atk p.1 p.2),
       files.map (fun p =>
         match tr (addUpdateDbPage cfgs.dbid cfgs.realm ut atk p.1 p.2) with
         | Except.ok _ => Alert.success (deployedMessage dts)
         | Except.error m => Alert.error m)) := by
  simpa using foldl_deployStep tr dts cfgs ut atk files ([], [])

lemma foldl_formatStep (pfx : String) (l : List (String × String × Bool)) :
    ∀ acc : List (String × String) × Option String,
      l.foldl (formatStep pfx) acc =
        (acc.1 ++ l.map (fun t => (pfx ++ t.1, t.2.1)),
         match lastClaim l with
         | some x => some x
         | none => acc.2) := by
  induction l with
  | nil => intro acc; simp [lastClaim]
  | cons t l ih =>
    intro acc
    rw [List.foldl_cons, ih]
    cases hl : lastClaim l with
    | some x => simp [formatStep, lastClaim, hl]
    | none =>
      cases ht : t.2.2 with
      | true => simp [formatStep, lastClaim, hl, ht]
      | false => simp [formatStep, lastClaim, hl, ht]

lemma formatFiles_eq (pfx : String) (l : List (String × String × Bool)) :
    formatFiles pfx l = (l.map (fun t => (pfx ++ t.1, t.2.1)), lastClaim l) := by
  rw [formatFiles, foldl_formatStep]
  cases hl : lastClaim l <;> simp

lemma generatePrefix_call (cfgs : QbCliConfigs) (d : PerDevConfig)
    (dt : DeploymentType) (r : String) :
    generatePrefix cfgs.devPrefix cfgs.prodPrefix d.customPrefixFeature dt r =
      if resolvedPrefix cfgs d dt = "" then Except.error ()
      else Except.ok (resolvedPrefix cfgs d dt) := by
  cases dt <;> rfl

lemma deployRun_empty_list (cfgs : QbCliConfigs) (configs : Option PerDevConfig)
    (ca : String) (fs : String → Option String) (tr : QBRequest → Except String Unit)
    (dt : DeploymentType) (ut atk : String) (h : cfgs.filesConf = []) :
    deployRun cfgs configs ca fs tr dt ut atk =
      { posts := []
        alerts := [Alert.error "You must list files to deploy in your qbcli.json."]
        outcome := DeployOutcome.errEmptyFilesList } := by
  simp [deployRun, h]

lemma deployRun_past_gates (cfgs : QbCliConfigs) (d : PerDevConfig)
    (ca : String) (fs : String → Option String) (tr : QBRequest → Except String Unit)
    (dt : DeploymentType) (ut atk : String)
    (hne : cfgs.filesConf ≠ [])
    (hconf : (dt = DeploymentType.prod ∨ dt = DeploymentType.dev) → ca = "yes")
    (hpfx : resolvedPrefix cfgs d dt ≠ "") :
    deployRun cfgs (some d) ca fs tr dt ut atk =
      if (getAllFileContents fs cfgs.filesConf).length < 1 then
        { posts := []
          alerts := [Alert.error checkQbcliMessage]
          outcome := DeployOutcome.errEmptyBatch }
      else
        { posts :=
            (deployLoop tr (deploymentTypeName dt) cfgs ut atk
              (formatFiles (resolvedPrefix cfgs d dt)
                (getAllFileContents fs cfgs.filesConf)).1).1
          alerts :=
            (deployLoop tr (deploymentTypeName dt) cfgs ut atk
              (formatFiles (resolvedPrefix cfgs d dt)
                (getAllFileContents fs cfgs.filesConf)).1).2
          outcome := DeployOutcome.deployed } := by
  have hlen : ¬ cfgs.filesConf.length < 1 := by
    intro hl
    exact hne (List.length_eq_zero.mp (Nat.lt_one_iff.mp hl))
  have hC : ¬ ((dt = DeploymentType.prod ∨ dt = DeploymentType.dev) ∧ ca ≠ "yes") := by
    rintro ⟨h1, h2⟩
    exact h2 (hconf h1)
  simp [deployRun, hlen, hC, generatePrefix_call, hpfx]

lemma deployRun_missing_prefix (cfgs : QbCliConfigs) (d : PerDevConfig)
    (ca : String) (fs : String → Option String) (tr : QBRequest → Except String Unit)
    (dt : DeploymentType) (ut atk : String)
    (hne : cfgs.filesConf ≠ [])
    (hconf : (dt = DeploymentType.prod ∨ dt = DeploymentType.dev) → ca = "yes")
    (hpfx : resolvedPrefix cfgs d dt = "") :
    deployRun cfgs (some d) ca fs tr dt ut atk =
      { posts := [], alerts := [], outcome := DeployOutcome.errMissingPrefix } := by
  have hlen : ¬ cfgs.filesConf.length < 1 := by
    intro hl
    exact hne (List.length_eq_zero.mp (Nat.lt_one_iff.mp hl))
  have hC : ¬ ((dt = DeploymentType.prod ∨ dt = DeploymentType.dev) ∧ ca ≠ "yes") := by
    rintro ⟨h1, h2⟩
    exact h2 (hconf h1)
  simp [deployRun, hlen, hC, generatePrefix_call, hpfx]

/-- C8: re-running `init` with a prior manifest present regenerates the
template but keeps the prior manifest's `urlQueryString` and `filesConf`
(called `fileEntries` in the spec) unchanged in the persisted result
(`src/index.js`, lines 73-77). -/
theorem init_preserves_query_string_and_files_conf
    (env : TemplateEnv) (prior : QbCliConfigs) :
    (initData env (some prior)).urlQueryString = prior.urlQueryString ∧
    (initData env (some prior)).filesConf = prior.filesConf :=
  ⟨rfl, rfl⟩

/-- A transport that accepts every request. -/
def trOk : QBRequest → Except String Unit := fun _ => Except.ok ()

/-- A filesystem holding `a.js` with content `"1"` and `b.js` with content `"2"`. -/
def fsTwo : String → Option String :=
  fun n => if n = "a.js" then some "1" else if n = "b.js" then some "2" else none

/-- A filesystem holding only `b.js` with content `"x"`; `a.js` is missing. -/
def fsOnlyB : String → Option String :=
  fun n => if n = "b.js" then some "x" else none

/-- A filesystem holding `x.html` with empty content. -/
def fsEmptyContent : String → Option String :=
  fun n => if n = "x.html" then some "" else none

/-- A manifest listing `a.js` (claimed as index file) and `b.js`. -/
def cfgsTwo : QbCliConfigs :=
  { urlQueryString := ""
    repositoryId := "repo1"
    prodPrefix := "P"
    devPrefix := "D"
    dbid := "abc123"
    devDbid := ""
    devAndProdQuickBaseApplications := "no"
    realm := "acme"
    filesConf :=
      [ { filename := "a.js", path := none, dependencies := none, isIndexFile := JSVal.str "yes" },
        { filename := "b.js", path := none, dependencies := none, isIndexFile := JSVal.undef } ] }

/-- The same manifest with an empty `filesConf`. -/
def cfgsEmptyList : QbCliConfigs := { cfgsTwo with filesConf := [] }

/-- The same manifest with an empty development custom prefix. -/
def cfgsNoDevPrefix : QbCliConfigs := { cfgsTwo with devPrefix := "" }

/-- A manifest listing only `x.html`. -/
def cfgsOneEmptyFile : QbCliConfigs :=
  { cfgsTwo with
    dbid := "dbid1"
    filesConf :=
      [ { filename := "x.html", path := none, dependencies := none, isIndexFile := JSVal.undef } ] }

/-- A transport that rejects exactly the upsert of page `Pa.js` with a
remote-supplied message, and accepts everything else. -/
def trFailFirst : QBRequest → Except String Unit :=
  fun r =>
    if r = addUpdateDbPage "abc123" "acme" "u" "" "Pa.js" "1" then
      Except.error "Quick Base rejected the page"
    else Except.ok ()

set_option maxRecDepth 8192 in
/-- C1 counterexample: with two prepared files and a transport that fails on
the first upsert, the deploy branch still issues the second POST — the error
is caught inside `handleAPICalls` and the loop continues, so a failing call
does not abort the remaining calls of the batch. -/
theorem failed_call_does_not_abort_batch :
    deployRun cfgsTwo (some { customPrefixFeature := "F" }) "yes" fsTwo trFailFirst
        DeploymentType.prod "u" "" =
      { posts := [addUpdateDbPage "abc123" "acme" "u" "" "Pa.js" "1",
                  addUpdateDbPage "abc123" "acme" "u" "" "Pb.js" "2"],
        alerts := [Alert.error "Quick Base rejected the page",
                   Alert.success "Files have been successfully deployed to the prod environment."],
        outcome := DeployOutcome.deployed } := by
  rfl

/-- C1 (amended): the deploy loop issues upsert calls one at a time, one per
formatted pair, and a failing call's remote-supplied message is reported
verbatim through `alert.error`; however the remaining calls of the batch are
still issued, because `handleAPICalls` catches the error itself — the issued
requests do not depend on the transport's failures at all. -/
theorem deploy_loop_posts_all_and_reports_verbatim
    (tr : QBRequest → Except String Unit) (dts : String) (cfgs : QbCliConfigs)
    (ut atk : String) (files : List (String × String)) :
    (deployLoop tr dts cfgs ut atk files).1 =
      files.map (fun p => addUpdateDbPage cfgs.dbid cfgs.realm ut atk p.1 p.2) ∧
    (deployLoop tr dts cfgs ut atk files).2 =
      files.map (fun p =>
        match tr (addUpdateDbPage cfgs.dbid cfgs.realm ut atk p.1 p.2) with
        | Except.ok _ => Alert.success (deployedMessage dts)
        | Except.error m => Alert.error m) := by
  rw [deployLoop_eq]
  exact ⟨rfl, rfl⟩

/-- C2 (code bug): `getAllFileContents` pushes an existing file even when its
content is the empty string, and the deploy branch then POSTs the blank page.
This contradicts the tool's own diagnostic text, which states that it "will
not deploy blank files". -/
theorem empty_content_file_is_deployed :
    getAllFileContents fsEmptyContent cfgsOneEmptyFile.filesConf = [("x.html", "", false)] ∧
    (deployRun cfgsOneEmptyFile (some { customPrefixFeature := "F" }) "yes" fsEmptyContent trOk
        DeploymentType.feat "u" "").posts =
      [addUpdateDbPage "dbid1" "acme" "u" "" "Fx.html" ""] :=
  ⟨rfl, rfl⟩

/-- C3 counterexample: with two entries both claiming to be the index file,
`indexFileName` ends up holding the second (last) one, not the first. -/
theorem last_index_claimant_wins_not_first :
    (formatFiles "P" [("a.js", "1", true), ("b.js", "2", true)]).2 = some "b.js" ∧
    (some "b.js" : Option String) ≠ some "a.js" :=
  ⟨rfl, by decide⟩

/-- C3 (amended): at most one file name is recorded as the index file (the
record is a single optional name, and the formatted pairs carry no index
mark); when several manifest entries claim to be the index file, the last
such entry in manifest order is the one recorded, each claimant overwriting
the previous one. -/
theorem formatFiles_index_last_claimant (pfx : String)
    (arrayOfFileContents : List (String × String × Bool)) :
    (formatFiles pfx arrayOfFileContents).2 = lastClaim arrayOfFileContents ∧
    (formatFiles pfx arrayOfFileContents).1 =
      arrayOfFileContents.map (fun t => (pfx ++ t.1, t.2.1)) := by
  rw [formatFiles_eq]
  exact ⟨rfl, rfl⟩

/-- C4: when the prefix resolved for the requested deployment type is the
empty string, the deploy branch stops with a `MissingPrefix` failure: no file
is transmitted (no POST is issued) and no file is deployed under an
unprefixed name.  The prefix resolution itself is the spec-modelled
`generatePrefix`. -/
theorem empty_resolved_prefix_aborts_deploy
    (cfgs : QbCliConfigs) (d : PerDevConfig) (ca : String) (fs : String → Option String)
    (tr : QBRequest → Except String Unit) (dt : DeploymentType) (ut atk : String)
    (hne : cfgs.filesConf ≠ [])
    (hconf : (dt = DeploymentType.prod ∨ dt = DeploymentType.dev) → ca = "yes")
    (hpfx : resolvedPrefix cfgs d dt = "") :
    deployRun cfgs (some d) ca fs tr dt ut atk =
      { posts := [], alerts := [], outcome := DeployOutcome.errMissingPrefix } :=
  deployRun_missing_prefix cfgs d ca fs tr dt ut atk hne hconf hpfx

/-- C4 witness: a development deploy with an empty `devPrefix` aborts with
`MissingPrefix` and issues zero POSTs. -/
theorem empty_resolved_prefix_aborts_deploy_witness :
    deployRun cfgsNoDevPrefix (some { customPrefixFeature := "F" }) "yes" fsTwo trOk
        DeploymentType.dev "u" "" =
      { posts := [], alerts := [], outcome := DeployOutcome.errMissingPrefix } :=
  empty_resolved_prefix_aborts_deploy cfgsNoDevPrefix { customPrefixFeature := "F" } "yes" fsTwo
    trOk DeploymentType.dev "u" "" (by decide) (fun _ => rfl) rfl

/-- C5 counterexample: the URL built by `addUpdateDbPage` is
`{realm}/db/{dbid}` with no `https://` scheme, so it is not the
`https://{realm}/db/{targetId}` the claim states. -/
theorem request_url_lacks_scheme :
    (addUpdateDbPage "abc123" "acme" "u" "" "Pa.js" "1").url = "acme/db/abc123" ∧
    (addUpdateDbPage "abc123" "acme" "u" "" "Pa.js" "1").url ≠ "https://acme/db/abc123" :=
  ⟨rfl, by decide⟩

/-- C5 (amended): the sync client issues exactly one POST per prepared file,
and each request's URL is `{realm}/db/{targetId}` built from the manifest's
realm and target identifier — without an `https://` scheme. -/
theorem request_url_and_one_post_per_file
    (dbid realm usertoken apptoken pagename pagebody : String)
    (tr : QBRequest → Except String Unit) (dts : String) (cfgs : QbCliConfigs)
    (ut atk : String) (files : List (String × String)) :
    (addUpdateDbPage dbid realm usertoken apptoken pagename pagebody).url =
      realm ++ "/db/" ++ dbid ∧
    (addUpdateDbPage dbid realm usertoken apptoken pagename pagebody).method = "post" ∧
    ((deployLoop tr dts cfgs ut atk files).1).length = files.length := by
  refine ⟨rfl, rfl, ?_⟩
  rw [deployLoop_eq]
  simp

/-- C6: a manifest with an empty file list, or one all of whose listed files
are missing from the filesystem (given that the other command gates pass),
terminates as an `EmptyDeployment`-class failure with zero network calls. -/
theorem empty_or_fully_missing_yields_empty_deployment
    (cfgs : QbCliConfigs) (configs : Option PerDevConfig) (ca : String)
    (fs : String → Option String) (tr : QBRequest → Except String Unit)
    (dt : DeploymentType) (ut atk : String)
    (h : cfgs.filesConf = [] ∨
      ∃ d, configs = some d ∧
        ((dt = DeploymentType.prod ∨ dt = DeploymentType.dev) → ca = "yes") ∧
        resolvedPrefix cfgs d dt ≠ "" ∧
        ∀ e ∈ cfgs.filesConf, fs e.filename = none) :
    (deployRun cfgs configs ca fs tr dt ut atk).posts = [] ∧
    (deployRun cfgs configs ca fs tr dt ut atk).outcome.isEmptyDeployment := by
  rcases h with h0 | ⟨d, hc, hconf, hpfx, hmiss⟩
  · rw [deployRun_empty_list cfgs configs ca fs tr dt ut atk h0]
    exact ⟨rfl, Or.inl rfl⟩
  · subst hc
    by_cases hne : cfgs.filesConf = []
    · rw [deployRun_empty_list _ _ _ _ _ _ _ _ hne]
      exact ⟨rfl, Or.inl rfl⟩
    · rw [deployRun_past_gates cfgs d ca fs tr dt ut atk hne hconf hpfx,
        getAllFileContents_of_all_missing fs cfgs.filesConf hmiss]
      exact ⟨rfl, Or.inr rfl⟩

/-- C6 witness: a manifest with an empty `filesConf` fails as
`EmptyDeployment` with zero POSTs. -/
theorem empty_or_fully_missing_yields_empty_deployment_witness :
    (deployRun cfgsEmptyList none "yes" fsTwo trOk DeploymentType.feat "u" "").posts = [] ∧
    (deployRun cfgsEmptyList none "yes" fsTwo trOk
        DeploymentType.feat "u" "").outcome.isEmptyDeployment :=
  empty_or_fully_missing_yields_empty_deployment cfgsEmptyList none "yes" fsTwo trOk
    DeploymentType.feat "u" "" (Or.inl rfl)

/-- C7 counterexample: with `a.js` missing and `b.js` present, the deploy
branch silently skips `a.js` — the only alert emitted is the success message,
so no warning is printed for the missing entry — while the rest of the batch
continues and `b.js` is deployed. -/
theorem missing_file_skipped_without_warning :
    deployRun cfgsTwo (some { customPrefixFeature := "F" }) "yes" fsOnlyB trOk
        DeploymentType.feat "u" "" =
      { posts := [addUpdateDbPage "abc123" "acme" "u" "" "Fb.js" "x"],
        alerts := [Alert.success "Files have been successfully deployed to the feat environment."],
        outcome := DeployOutcome.deployed } := by
  rfl

/-- C7 (amended): entries whose source path is missing are skipped — silently,
with no warning emitted — and every entry whose source exists is still loaded,
in manifest order: the loaded batch is exactly the filter-map of the manifest
entries through the filesystem, so a missing file alone is never a hard
failure of the whole batch. -/
theorem loader_skips_missing_and_continues (fs : String → Option String)
    (filesConf : List FileConfEntry) :
    getAllFileContents fs filesConf =
      filesConf.filterMap
        (fun e => (fs e.filename).map (fun c => (e.filename, c, e.isIndexFile.isYes))) :=
  getAllFileContents_eq fs filesConf

/-- C10 counterexample: on the same two-file formatted batch, the
`src/index.js` loop issues two POSTs with the pairs' own names and bodies,
while the `src/unnamed/part_000` variant issues a single POST whose page name
and body are the comma-joined string coercions of the first and second pairs;
the two request sequences differ. -/
theorem variants_issue_different_requests :
    (deployLoop trOk "prod" cfgsTwo "u" "" [("Pa.js", "1"), ("Pb.js", "2")]).1 =
      [addUpdateDbPage "abc123" "acme" "u" "" "Pa.js" "1",
       addUpdateDbPage "abc123" "acme" "u" "" "Pb.js" "2"] ∧
    (part000DeployCall trOk "prod" cfgsTwo "u" "" [("Pa.js", "1"), ("Pb.js", "2")]).1 =
      [addUpdateDbPage "abc123" "acme" "u" "" "Pa.js,1" "Pb.js,2"] ∧
    (deployLoop trOk "prod" cfgsTwo "u" "" [("Pa.js", "1"), ("Pb.js", "2")]).1 ≠
      (part000DeployCall trOk "prod" cfgsTwo "u" "" [("Pa.js", "1"), ("Pb.js", "2")]).1 :=
  ⟨rfl, rfl, by decide⟩

/-- C10 (amended): the two deploy drivers do not issue the same request
sequence.  `src/index.js` calls `addUpdateDbPage` once per formatted pair,
issuing one POST per pair with that pair's name and body; `src/unnamed/part_000`
passes the whole array in a single `addUpdateDbPage` call, issuing exactly one
POST whose page name and body are the JavaScript string coercions of the
first and second pairs; consequently the sequences differ for every batch of
two or more files. -/
theorem variants_request_characterization
    (tr : QBRequest → Except String Unit) (dts : String) (cfgs : QbCliConfigs)
    (ut atk : String) (files : List (String × String)) :
    (deployLoop tr dts cfgs ut atk files).1 =
      files.map (fun p => addUpdateDbPage cfgs.dbid cfgs.realm ut atk p.1 p.2) ∧
    (part000DeployCall tr dts cfgs ut atk files).1 =
      [addUpdateDbPage cfgs.dbid cfgs.realm ut atk
        (jsIndexToString files 0) (jsIndexToString files 1)] ∧
    (2 ≤ files.length →
      (deployLoop tr dts cfgs ut atk files).1 ≠
        (part000DeployCall tr dts cfgs ut atk files).1) := by
  refine ⟨by rw [deployLoop_eq], rfl, ?_⟩
  intro h2 heq
  have hlen := congrArg List.length heq
  rw [deployLoop_eq] at hlen
  have h1 : (part000DeployCall tr dts cfgs ut atk files).1.length = 1 := rfl
  rw [h1] at hlen
  simp at hlen
  omega

/-- C10 witness: on a concrete two-file batch the two variants' request
sequences differ. -/
theorem variants_request_characterization_witness :
    (deployLoop trOk "dev" cfgsTwo "u" "" [("Da.js", "1"), ("Db.js", "2")]).1 ≠
      (part000DeployCall trOk "dev" cfgsTwo "u" "" [("Da.js", "1"), ("Db.js", "2")]).1 :=
  (variants_request_characterization trOk "dev" cfgsTwo "u" "" [("Da.js", "1"), ("Db.js", "2")]).2.2
    (by decide)

/-- The character set JavaScript's `encodeURI` leaves unescaped, beyond ASCII
letters and digits: the `uriMark` characters and the `uriReserved` characters
plus `#` (ECMA-262).  `Char.ofNat 39` is the apostrophe. -/
def uriMarkOrReserved (c : Char) : Bool :=
  c == '-' || c == '_' || c == '.' || c == '!' || c == '~' || c == '*' || c == Char.ofNat 39 ||
  c == '(' || c == ')' || c == ';' || c == '/' || c == '?' || c == ':' || c == '@' ||
  c == '&' || c == '=' || c == '+' || c == '$' || c == ',' || c == '#'

/-- Whether `encodeURI` leaves the character unchanged. -/
def encodeURIUnescaped (c : Char) : Bool :=
  c.isAlpha || c.isDigit || uriMarkOrReserved c

/-- Uppercase hexadecimal digit for a value below 16. -/
def hexDigitChar (n : Nat) : Char :=
  if n < 10 then Char.ofNat (48 + n) else Char.ofNat (55 + n)

/-- Percent-escape of one byte, as produced by `encodeURI`. -/
def percentByte (b : Nat) : List Char :=
  ['%', hexDigitChar (b / 16), hexDigitChar (b % 16)]

/-- UTF-8 byte sequence of a Unicode code point. -/
def utf8Bytes (n : Nat) : List Nat :=
  if n < 128 then [n]
  else if n < 2048 then [192 + n / 64, 128 + n % 64]
  else if n < 65536 then [224 + n / 4096, 128 + (n / 64) % 64, 128 + n % 64]
  else [240 + n / 262144, 128 + (n / 4096) % 64, 128 + (n / 64) % 64, 128 + n % 64]

/-- Escaping of one character under JavaScript's `encodeURI`. -/
def encodeURIChar (c : Char) : List Char :=
  if encodeURIUnescaped c then [c] else (utf8Bytes c.toNat).flatMap percentByte

/-- Embedding of JavaScript's `encodeURI`, over the character list of the
string. -/
def encodeURI (s : List Char) : List Char := s.flatMap encodeURIChar

/-- The `encodedQueryString` local of the launch branch (`src/index.js`, line
194): the empty string is falsy in JavaScript, so an empty `urlQueryString`
yields no suffix; otherwise an ampersand followed by the encoded query
string. -/
def encodedQueryString (urlQueryString : List Char) : List Char :=
  if urlQueryString = [] then [] else '&' :: encodeURI urlQueryString

/-- Embedding of the launch URL construction (`src/index.js`, line 197), over
character lists. -/
def launchURLChars (realm launchDbid pageId urlQueryString : List Char) : List Char :=
  "https://".toList ++ realm ++ ".quickbase.com/db/".toList ++ launchDbid ++
    "?a=dbpage&pageID=".toList ++ pageId ++ encodedQueryString urlQueryString

/-- Removes the given literal from the front of a list, or fails. -/
def stripPrefixL : List Char → List Char → Option (List Char)
  | [], l => some l
  | _ :: _, [] => none
  | p :: ps, c :: cs => if c = p then stripPrefixL ps cs else none

/-- Removes the given literal from the back of a list, or fails. -/
def stripSuffixL (s l : List Char) : Option (List Char) :=
  (stripPrefixL s.reverse l.reverse).map List.reverse

/-- Splits a list at the first occurrence of the delimiter, dropping it. -/
def splitAtFirst (d : Char) : List Char → Option (List Char × List Char)
  | [] => none
  | c :: cs =>
    if c = d then some ([], cs)
    else (splitAtFirst d cs).map (fun p => (c :: p.1, p.2))

/-- A parser for the launch URL shape, recovering
`(realm, launchDbid, pageId, queryString)`: it strips the scheme, splits the
host at the first slash, strips the service-domain suffix and the `db/`
segment, splits the target id at the first question mark, strips the
dispatch-parameter literal, and finally splits the page id from the optional
query string at the first ampersand. -/
def parseLaunchURL (url : List Char) : Option (List Char × List Char × List Char × List Char) :=
  match stripPrefixL "https://".toList url with
  | none => none
  | some r1 =>
    match splitAtFirst '/' r1 with
    | none => none
    | some (host, r2) =>
      match stripSuffixL ".quickbase.com".toList host with
      | none => none
      | some realm =>
        match stripPrefixL "db/".toList r2 with
        | none => none
        | some r3 =>
          match splitAtFirst '?' r3 with
          | none => none
          | some (launchDbid, r4) =>
            match stripPrefixL "a=dbpage&pageID=".toList r4 with
            | none => none
            | some r5 =>
              match splitAtFirst '&' r5 with
              | none => some (realm, launchDbid, r5, [])
              | some pq => some (realm, launchDbid, pq.1, pq.2)

lemma stripPrefixL_append (p : List Char) : ∀ r, stripPrefixL p (p ++ r) = some r := by
  induction p with
  | nil => intro r; rfl
  | cons c p ih => intro r; simp [stripPrefixL, ih]

lemma stripSuffixL_append (s a : List Char) : stripSuffixL s (a ++ s) = some a := by
  simp [stripSuffixL, List.reverse_append, stripPrefixL_append]

lemma splitAtFirst_not_mem (d : Char) (l : List Char) (h : d ∉ l) :
    splitAtFirst d l = none := by
  induction l with
  | nil => rfl
  | cons c cs ih =>
    have hc : ¬ c = d := fun hcd => h (hcd ▸ List.mem_cons_self c cs)
    simp [splitAtFirst, hc, ih (fun hm => h (List.mem_cons_of_mem c hm))]

lemma splitAtFirst_append (d : Char) (a b : List Char) (ha : d ∉ a) :
    splitAtFirst d (a ++ d :: b) = some (a, b) := by
  induction a with
  | nil => simp [splitAtFirst]
  | cons c a ih =>
    have hc : ¬ c = d := fun hcd => ha (hcd ▸ List.mem_cons_self c a)
    simp [splitAtFirst, hc, ih (fun hm => ha (List.mem_cons_of_mem c hm))]

lemma splitAtFirst_append_assoc (d : Char) (a b c : List Char) (ha : d ∉ a) (hb : d ∉ b) :
    splitAtFirst d (a ++ (b ++ d :: c)) = some (a ++ b, c) := by
  rw [← List.append_assoc]
  refine splitAtFirst_append d (a ++ b) c ?_
  intro hm
  rcases List.mem_append.mp hm with h | h
  · exact ha h
  · exact hb h

lemma encodeURI_of_unescaped (s : List Char) (h : ∀ c ∈ s, encodeURIUnescaped c = true) :
    encodeURI s = s := by
  induction s with
  | nil => rfl
  | cons c cs ih =>
    have hc := h c (List.mem_cons_self c cs)
    have ih' := ih (fun x hx => h x (List.mem_cons_of_mem c hx))
    simp only [encodeURI] at ih'
    simp [encodeURI, encodeURIChar, hc, ih']

/-- C9 counterexample: the launch URL construction is not injective in
`(pageId, queryString)` — page id `1&x=2` with an empty query string and page
id `1` with query string `x=2` yield the same URL — so no parser can recover
exactly the supplied `pageId` and query string from the URL: the natural
left-to-right parser recovers `("1", "x=2")` from the URL built with
`("1&x=2", "")`. -/
theorem launch_url_not_injective :
    launchURLChars "acme".toList "abc123".toList "1&x=2".toList [] =
      launchURLChars "acme".toList "abc123".toList "1".toList "x=2".toList ∧
    parseLaunchURL (launchURLChars "acme".toList "abc123".toList "1&x=2".toList []) =
      some ("acme".toList, "abc123".toList, "1".toList, "x=2".toList) ∧
    ("1&x=2".toList, ([] : List Char)) ≠ ("1".toList, "x=2".toList) :=
  ⟨by decide, by decide, by decide⟩

/-- C9 (amended): for components free of the URL's own delimiters — no slash
in the realm, no question mark in the target id, no ampersand in the page id,
and a query string whose characters `encodeURI` leaves unescaped — parsing
the produced launch URL recovers exactly the realm, target id, page id and
query string supplied as input; and when the query string is empty, the URL
carries no trailing query-string suffix. -/
theorem launch_url_roundtrip
    (realm launchDbid pageId urlQueryString : List Char)
    (hRealm : '/' ∉ realm) (hDbid : '?' ∉ launchDbid) (hPage : '&' ∉ pageId)
    (hQs : ∀ c ∈ urlQueryString, encodeURIUnescaped c = true) :
    parseLaunchURL (launchURLChars realm launchDbid pageId urlQueryString) =
      some (realm, launchDbid, pageId, urlQueryString) ∧
    launchURLChars realm launchDbid pageId [] =
      "https://".toList ++ realm ++ ".quickbase.com/db/".toList ++ launchDbid ++
        "?a=dbpage&pageID=".toList ++ pageId := by
  have hB : ".quickbase.com/db/".toList =
      ".quickbase.com".toList ++ '/' :: "db/".toList := by decide
  have hC : "?a=dbpage&pageID=".toList =
      ('?' : Char) :: "a=dbpage&pageID=".toList := by decide
  have hQslash : ('/' : Char) ∉ ".quickbase.com".toList := by decide
  constructor
  · by_cases hqs : urlQueryString = []
    · subst hqs
      have hE : encodedQueryString ([] : List Char) = [] := rfl
      have hAmp : splitAtFirst '&' pageId = none := splitAtFirst_not_mem '&' pageId hPage
      simp only [parseLaunchURL, launchURLChars, hE, List.append_nil, hB, hC,
        List.append_assoc, List.cons_append, stripPrefixL_append, stripSuffixL_append,
        hAmp, splitAtFirst_append_assoc, splitAtFirst_append, hRealm, hQslash, hDbid,
        hPage, not_false_eq_true]
    · have hE : encodedQueryString urlQueryString = '&' :: urlQueryString := by
        simp [encodedQueryString, hqs, encodeURI_of_unescaped urlQueryString hQs]
      simp only [parseLaunchURL, launchURLChars, hE, hB, hC,
        List.append_assoc, List.cons_append, stripPrefixL_append, stripSuffixL_append,
        splitAtFirst_append_assoc, splitAtFirst_append, hRealm, hQslash, hDbid,
        hPage, not_false_eq_true]
  · simp [launchURLChars, encodedQueryString]

/-- C9 witness: a concrete well-formed launch URL parses back to exactly its
inputs. -/
theorem launch_url_roundtrip_witness :
    parseLaunchURL (launchURLChars "acme".toList "abc123".toList "7".toList "app=main".toList) =
      some ("acme".toList, "abc123".toList, "7".toList, "app=main".toList) :=
  (launch_url_roundtrip "acme".toList "abc123".toList "7".toList "app=main".toList
    (by decide) (by decide) (by decide) (by decide)).1

end DeployQB
